import Mathlib

/-!
Verification development for the ZSnapr interactive region-selection and
annotation overlay (`src/modules/region_selector_with_drawing.py`).

The overlay is a PySide6 (Qt 6) widget.  Geometry is therefore modelled with
Qt 6 `QRect` semantics: a rectangle stores its left/top and right/bottom
coordinates inclusively, so `right() = x() + width() - 1` and
`bottom() = y() + height() - 1`.  All machine integers in the source are
Python ints (unbounded), embedded as `Int`.  Python strings are embedded as
`List Char` (character sequences, indexed and sliced by character position,
exactly like Python slicing).
-/

/-- A point, as Qt `QPoint` (integer coordinates). -/
structure Pt where
  x : Int
  y : Int
deriving DecidableEq, Repr

namespace Pt

/-- Componentwise subtraction, as `QPoint - QPoint`. -/
def sub (a b : Pt) : Pt := ⟨a.x - b.x, a.y - b.y⟩

/-- Componentwise addition, as `QPoint + QPoint`. -/
def add (a b : Pt) : Pt := ⟨a.x + b.x, a.y + b.y⟩

end Pt

/-- Qt 6 `QRect`: stored as inclusive corner coordinates `x1 = left`,
`y1 = top`, `x2 = right`, `y2 = bottom`; `width = x2 - x1 + 1`,
`height = y2 - y1 + 1`. -/
structure QRect where
  x1 : Int
  y1 : Int
  x2 : Int
  y2 : Int
deriving DecidableEq, Repr

namespace QRect

/-- `QRect(x, y, w, h)` constructor. -/
def mk4 (x y w h : Int) : QRect := ⟨x, y, x + w - 1, y + h - 1⟩

/-- `QRect(QPoint topLeft, QPoint bottomRight)` constructor. -/
def ofPoints (p1 p2 : Pt) : QRect := ⟨p1.x, p1.y, p2.x, p2.y⟩

def left (r : QRect) : Int := r.x1
def top (r : QRect) : Int := r.y1
def right (r : QRect) : Int := r.x2
def bottom (r : QRect) : Int := r.y2
def width (r : QRect) : Int := r.x2 - r.x1 + 1
def height (r : QRect) : Int := r.y2 - r.y1 + 1
def topLeft (r : QRect) : Pt := ⟨r.x1, r.y1⟩
def bottomRight (r : QRect) : Pt := ⟨r.x2, r.y2⟩

/-- `QRect::isEmpty()`: true when `x1 > x2` or `y1 > y2`. -/
def isEmpty (r : QRect) : Bool := r.x1 > r.x2 || r.y1 > r.y2

/-- Qt 6 `QRect::normalized()`: flips a negative extent keeping the absolute
width/height (`r.x1 = x2 + 1; r.x2 = x1 - 1` when `x2 < x1`). -/
def normalized (r : QRect) : QRect :=
  let (nx1, nx2) := if r.x2 < r.x1 then (r.x2 + 1, r.x1 - 1) else (r.x1, r.x2)
  let (ny1, ny2) := if r.y2 < r.y1 then (r.y2 + 1, r.y1 - 1) else (r.y1, r.y2)
  ⟨nx1, ny1, nx2, ny2⟩

/-- `QRect::contains(QPoint)` (non-proper), as in Qt 6 `qrect.cpp`: the
stored corners are re-ordered on the fly (`x2 < x1 - 1` branch) and the
point is compared inclusively. -/
def containsPt (r : QRect) (p : Pt) : Bool :=
  let (l, rr) := if r.x2 < r.x1 - 1 then (r.x2, r.x1) else (r.x1, r.x2)
  let (t, b) := if r.y2 < r.y1 - 1 then (r.y2, r.y1) else (r.y1, r.y2)
  decide (l ≤ p.x) && decide (p.x ≤ rr) && decide (t ≤ p.y) && decide (p.y ≤ b)

/-- `QRect::setLeft` (right edge unchanged). -/
def setLeft (r : QRect) (v : Int) : QRect := ⟨v, r.y1, r.x2, r.y2⟩

/-- `QRect::setRight` (left edge unchanged). -/
def setRight (r : QRect) (v : Int) : QRect := ⟨r.x1, r.y1, v, r.y2⟩

/-- `QRect::setTop`. -/
def setTop (r : QRect) (v : Int) : QRect := ⟨r.x1, v, r.x2, r.y2⟩

/-- `QRect::setBottom`. -/
def setBottom (r : QRect) (v : Int) : QRect := ⟨r.x1, r.y1, r.x2, v⟩

/-- `QRect::setWidth` (left edge fixed). -/
def setWidth (r : QRect) (w : Int) : QRect := ⟨r.x1, r.y1, r.x1 + w - 1, r.y2⟩

/-- `QRect::setHeight` (top edge fixed). -/
def setHeight (r : QRect) (h : Int) : QRect := ⟨r.x1, r.y1, r.x2, r.y1 + h - 1⟩

/-- `QRect::moveLeft`: translate horizontally so that `left() = v`. -/
def moveLeft (r : QRect) (v : Int) : QRect := ⟨v, r.y1, r.x2 + (v - r.x1), r.y2⟩

/-- `QRect::moveTop`: translate vertically so that `top() = v`. -/
def moveTop (r : QRect) (v : Int) : QRect := ⟨r.x1, v, r.x2, r.y2 + (v - r.y1)⟩

/-- `QRect::moveRight`: translate horizontally so that `right() = v`. -/
def moveRight (r : QRect) (v : Int) : QRect := ⟨r.x1 + (v - r.x2), r.y1, v, r.y2⟩

/-- `QRect::moveBottom`: translate vertically so that `bottom() = v`. -/
def moveBottom (r : QRect) (v : Int) : QRect := ⟨r.x1, r.y1 + (v - r.y2), r.x2, v⟩

/-- `QRect::adjusted(dx1, dy1, dx2, dy2)`. -/
def adjusted (r : QRect) (dx1 dy1 dx2 dy2 : Int) : QRect :=
  ⟨r.x1 + dx1, r.y1 + dy1, r.x2 + dx2, r.y2 + dy2⟩

/-- `QRect(QPoint topLeft, QSize size)` where the size is another
rectangle's size: translation preserving width and height. -/
def withTopLeftSameSize (r : QRect) (p : Pt) : QRect :=
  ⟨p.x, p.y, p.x + r.width - 1, p.y + r.height - 1⟩

/-- `QRect::setTopLeft`. -/
def setTopLeft (r : QRect) (p : Pt) : QRect := ⟨p.x, p.y, r.x2, r.y2⟩

/-- `QRect::setTopRight`. -/
def setTopRight (r : QRect) (p : Pt) : QRect := ⟨r.x1, p.y, p.x, r.y2⟩

/-- `QRect::setBottomLeft`. -/
def setBottomLeft (r : QRect) (p : Pt) : QRect := ⟨p.x, r.y1, r.x2, p.y⟩

/-- `QRect::setBottomRight`. -/
def setBottomRight (r : QRect) (p : Pt) : QRect := ⟨r.x1, r.y1, p.x, p.y⟩

/-- `QRect::center().x()`: `(x1 + x2) / 2` (all uses here have nonnegative
coordinates, where C++ and Lean integer division agree). -/
def centerX (r : QRect) : Int := (r.x1 + r.x2) / 2

/-- `QRect::center().y()`. -/
def centerY (r : QRect) : Int := (r.y1 + r.y2) / 2

end QRect

/-- `self.MIN_SELECTION_SIZE` (set in `RegionSelectorWithDrawing.__init__`). -/
def MIN_SELECTION_SIZE : Int := 20

/-- `_constrain_to_screen`, first block ("Constrain position"): clamp each
edge of the rectangle into the screen by translation. -/
def constrainPos (W H : Int) (c : QRect) : QRect :=
  let c := if c.left < 0 then c.moveLeft 0 else c
  let c := if c.top < 0 then c.moveTop 0 else c
  let c := if c.right > W then c.moveRight W else c
  if c.bottom > H then c.moveBottom H else c

/-- `_constrain_to_screen`, second block ("Ensure minimum size"). -/
def constrainMinSize (c : QRect) : QRect :=
  let c := if c.width < MIN_SELECTION_SIZE then c.setWidth MIN_SELECTION_SIZE else c
  if c.height < MIN_SELECTION_SIZE then c.setHeight MIN_SELECTION_SIZE else c

/-- `_constrain_to_screen`, third block ("Final boundary check"). -/
def constrainFinal (W H : Int) (c : QRect) : QRect :=
  let c := if c.right > W then c.moveLeft (W - c.width) else c
  if c.bottom > H then c.moveTop (H - c.height) else c

/-- `RegionSelectorWithDrawing._constrain_to_screen(rect)`.  The screen is
`self.screen_rect = QRect(0, 0, W, H)` so `screen_rect.width() = W` and
`screen_rect.height() = H`.  The three stages are the source's three
commented blocks, applied in order. -/
def constrainToScreen (W H : Int) (rect : QRect) : QRect :=
  constrainFinal W H (constrainMinSize (constrainPos W H rect))

/-- The eight resize-handle identities of the selection rectangle, as the
string keys of `_get_resize_handles()`. -/
inductive Handle
  | topLeft | topRight | bottomLeft | bottomRight
  | top | bottom | left | right
deriving DecidableEq, Repr

namespace Handle

/-- Python `'left' in self.resize_handle` (substring test on the handle
name): true for `top_left`, `bottom_left` and `left`. -/
def hasLeft : Handle → Bool
  | .topLeft | .bottomLeft | .left => true
  | _ => false

/-- Python `'right' in self.resize_handle`. -/
def hasRight : Handle → Bool
  | .topRight | .bottomRight | .right => true
  | _ => false

/-- Python `'top' in self.resize_handle`. -/
def hasTop : Handle → Bool
  | .topLeft | .topRight | .top => true
  | _ => false

/-- Python `'bottom' in self.resize_handle`. -/
def hasBottom : Handle → Bool
  | .bottomLeft | .bottomRight | .bottom => true
  | _ => false

end Handle

/-- `_resize_selection`, edge-moving part: the four
`if 'left' in self.resize_handle: rect.setLeft(pos.x())` (etc.) statements. -/
def resizeEdges (sel : QRect) (h : Handle) (pos : Pt) : QRect :=
  let rect := sel
  let rect := if h.hasLeft then rect.setLeft pos.x else rect
  let rect := if h.hasRight then rect.setRight pos.x else rect
  let rect := if h.hasTop then rect.setTop pos.y else rect
  if h.hasBottom then rect.setBottom pos.y else rect

/-- `RegionSelectorWithDrawing._resize_selection(pos)` with
`self.resize_handle = h`: move the grabbed edge(s) to the pointer, then
`self.selection_rect = self._constrain_to_screen(rect.normalized())`. -/
def resizeSelection (W H : Int) (sel : QRect) (h : Handle) (pos : Pt) : QRect :=
  constrainToScreen W H (resizeEdges sel h pos).normalized

/-- A sequence of resize-handle drag move events, applied in order
(each `mouseMoveEvent` while `self.resizing` calls `_resize_selection`). -/
def runResizeDrags (W H : Int) (start : QRect) (drags : List (Handle × Pt)) : QRect :=
  drags.foldl (fun r d => resizeSelection W H r d.1 d.2) start

/-- `RegionSelectorWithDrawing._update_selection_rect`: the selection
created by a drag from `start_point` to `end_point`,
`self._constrain_to_screen(QRect(self.start_point, self.end_point).normalized())`. -/
def updateSelectionRect (W H : Int) (start_point end_point : Pt) : QRect :=
  constrainToScreen W H ((QRect.ofPoints start_point end_point).normalized)

/-- A pointer position delivered to the overlay widget: the cursor is
confined to the screen `[0, W-1] × [0, H-1]`. -/
def onScreenPos (W H : Int) (p : Pt) : Prop :=
  0 ≤ p.x ∧ p.x ≤ W - 1 ∧ 0 ≤ p.y ∧ p.y ≤ H - 1

instance (W H : Int) (p : Pt) : Decidable (onScreenPos W H p) := by
  unfold onScreenPos; infer_instance

/-- The selection-rectangle invariant exactly as the claim states it:
`x ≥ 0, y ≥ 0, x + w ≤ screen_w, y + h ≤ screen_h, w ≥ 20, h ≥ 20`. -/
def SelInvClaimed (W H : Int) (r : QRect) : Prop :=
  0 ≤ r.left ∧ 0 ≤ r.top ∧ r.left + r.width ≤ W ∧ r.top + r.height ≤ H ∧
    MIN_SELECTION_SIZE ≤ r.width ∧ MIN_SELECTION_SIZE ≤ r.height

instance (W H : Int) (r : QRect) : Decidable (SelInvClaimed W H r) := by
  unfold SelInvClaimed; infer_instance

/-- The invariant the code actually maintains: `_constrain_to_screen`
clamps the inclusive coordinate `right() = x + w - 1` to `screen_w`, so the
exclusive bound is `x + w ≤ screen_w + 1` (one pixel looser than claimed),
and symmetrically for the bottom edge. -/
def SelInvActual (W H : Int) (r : QRect) : Prop :=
  0 ≤ r.left ∧ 0 ≤ r.top ∧ r.left + r.width ≤ W + 1 ∧ r.top + r.height ≤ H + 1 ∧
    MIN_SELECTION_SIZE ≤ r.width ∧ MIN_SELECTION_SIZE ≤ r.height

instance (W H : Int) (r : QRect) : Decidable (SelInvActual W H r) := by
  unfold SelInvActual; infer_instance

/-! ## Editor state: drawing-item list, history stacks, inline text session

Python strings are embedded as `List Char`; Python's `str.strip()` is
`pyStrip`.  Drawing-item objects are identified by a `Nat` id (Python
compares them by object identity in `list.remove` / `in`); the mutable
`text_content` attribute of each item lives in the `contents` association
list of the state. -/

/-- Python `str.strip()`: remove leading and trailing whitespace. -/
def pyStrip (s : List Char) : List Char :=
  ((s.dropWhile Char.isWhitespace).reverse.dropWhile Char.isWhitespace).reverse

/-- The `RegionSelectorWithDrawing` attributes the modelled operations read
or write.  Items are ids; `contents` maps an item id to its `text_content`.
`cancelled` records that `_cancel_selection` ran (the overlay closes with a
cancel result). -/
structure EditorState where
  drawing_items : List Nat
  undo_stack : List Nat
  redo_stack : List Nat
  contents : List (Nat × List Char)
  inline_editing : Bool
  editing_text_item : Option Nat
  text_input_buffer : List Char
  cursor_position : Nat
  text_selection_start : Nat
  text_selection_end : Nat
  preedit_text : List Char
  preedit_cursor_pos : Nat
  cancelled : Bool
deriving DecidableEq, Repr

/-- The attribute values set in `__init__`. -/
def initState : EditorState :=
  { drawing_items := [], undo_stack := [], redo_stack := [], contents := []
    inline_editing := false, editing_text_item := none, text_input_buffer := []
    cursor_position := 0, text_selection_start := 0, text_selection_end := 0
    preedit_text := [], preedit_cursor_pos := 0, cancelled := false }

/-- Write `text_content` of item `i` (attribute assignment on the object). -/
def setTextContent (cs : List (Nat × List Char)) (i : Nat) (v : List Char) :
    List (Nat × List Char) :=
  cs.map fun p => if p.1 = i then (i, v) else p

/-- `text_content` of item `i` (`""` when absent, mirroring the
`hasattr` fallback). -/
def getTextContent (cs : List (Nat × List Char)) (i : Nat) : List Char :=
  (cs.lookup i).getD []

/-- The commit performed in `mouseReleaseEvent` when a drawing gesture
finishes: `self.drawing_items.append(item)`, `self.undo_stack.append(item)`,
`self.redo_stack.clear()`. -/
def commitDrawing (s : EditorState) (i : Nat) : EditorState :=
  { s with drawing_items := s.drawing_items ++ [i]
           undo_stack := s.undo_stack ++ [i]
           redo_stack := [] }

/-- `RegionSelectorWithDrawing._undo_drawing`: no-op on an empty stack,
else pop the last item, push it on `redo_stack`, and remove it from
`drawing_items` if present (Python `list.remove`: first occurrence). -/
def undoDrawing (s : EditorState) : EditorState :=
  match s.undo_stack.getLast? with
  | none => s
  | some item =>
    { s with undo_stack := s.undo_stack.dropLast
             redo_stack := s.redo_stack ++ [item]
             drawing_items :=
               if item ∈ s.drawing_items then s.drawing_items.erase item
               else s.drawing_items }

/-- `RegionSelectorWithDrawing._redo_drawing`: no-op on an empty stack,
else pop the last redo item, push it on `undo_stack` and re-append it to
`drawing_items`. -/
def redoDrawing (s : EditorState) : EditorState :=
  match s.redo_stack.getLast? with
  | none => s
  | some item =>
    { s with redo_stack := s.redo_stack.dropLast
             undo_stack := s.undo_stack ++ [item]
             drawing_items := s.drawing_items ++ [item] }

/-- `RegionSelectorWithDrawing._start_inline_text_editing(text_item)`:
load the item's `text_content` into the buffer, put the cursor at its end.
The selection and pre-edit attributes are *not* touched. -/
def startInlineTextEditing (s : EditorState) (i : Nat) : EditorState :=
  { s with inline_editing := true
           editing_text_item := some i
           text_input_buffer := getTextContent s.contents i
           cursor_position := (getTextContent s.contents i).length }

/-- `RegionSelectorWithDrawing._finish_inline_text_editing`: when a session
is active, save the buffer into the item's `text_content` if it has
non-whitespace content, otherwise remove the item from `drawing_items` and
from `undo_stack` (each only if present); then clear the session state. -/
def finishInlineTextEditing (s : EditorState) : EditorState :=
  let s1 :=
    if s.inline_editing then
      match s.editing_text_item with
      | some i =>
        if pyStrip s.text_input_buffer ≠ [] then
          { s with contents := setTextContent s.contents i s.text_input_buffer }
        else
          { s with drawing_items :=
                     if i ∈ s.drawing_items then s.drawing_items.erase i
                     else s.drawing_items
                   undo_stack :=
                     if i ∈ s.undo_stack then s.undo_stack.erase i
                     else s.undo_stack }
      | none => s
    else s
  { s1 with inline_editing := false, editing_text_item := none
            text_input_buffer := [], cursor_position := 0 }

/-- `RegionSelectorWithDrawing._handle_text_input(pos)` (the Text-tool
click path), history part: the freshly created text item (id `i`, empty
`text_content`) is appended to `drawing_items` and `undo_stack`,
`redo_stack` is cleared, and inline editing starts on it. -/
def handleTextInput (s : EditorState) (i : Nat) : EditorState :=
  startInlineTextEditing
    { s with drawing_items := s.drawing_items ++ [i]
             undo_stack := s.undo_stack ++ [i]
             redo_stack := []
             contents := s.contents ++ [(i, [])] } i

/-- The Escape branch of `keyPressEvent`: while inline editing, the editing
item is removed from `drawing_items` (unconditionally, if present) and the
session is finished; otherwise the whole selection is cancelled
(`_cancel_selection`). -/
def keyPressEscape (s : EditorState) : EditorState :=
  if s.inline_editing then
    let s1 :=
      match s.editing_text_item with
      | some i =>
        { s with drawing_items :=
                   if i ∈ s.drawing_items then s.drawing_items.erase i
                   else s.drawing_items }
      | none => s
    finishInlineTextEditing s1
  else { s with cancelled := true }

/-- The printable-text branch of `keyPressEvent` while inline editing:
replace the current selection by the typed text if one exists, else insert
at the cursor; then collapse the selection onto the cursor. -/
def keyPressText (s : EditorState) (text : List Char) : EditorState :=
  let s1 :=
    if s.text_selection_start ≠ s.text_selection_end then
      let start := min s.text_selection_start s.text_selection_end
      let stop := max s.text_selection_start s.text_selection_end
      { s with text_input_buffer :=
                 s.text_input_buffer.take start ++ text ++ s.text_input_buffer.drop stop
               cursor_position := start + text.length }
    else
      { s with text_input_buffer :=
                 s.text_input_buffer.take s.cursor_position ++ text ++
                   s.text_input_buffer.drop s.cursor_position
               cursor_position := s.cursor_position + text.length }
  { s1 with text_selection_start := s1.cursor_position
            text_selection_end := s1.cursor_position }

/-- The Left-arrow branch of `keyPressEvent` while inline editing. -/
def keyPressLeft (s : EditorState) (shift : Bool) : EditorState :=
  if shift then
    if s.cursor_position > 0 then
      { s with cursor_position := s.cursor_position - 1
               text_selection_end := s.cursor_position - 1 }
    else s
  else
    let s1 :=
      if s.text_selection_start ≠ s.text_selection_end then
        { s with cursor_position := min s.text_selection_start s.text_selection_end }
      else if s.cursor_position > 0 then
        { s with cursor_position := s.cursor_position - 1 }
      else s
    { s1 with text_selection_start := s1.cursor_position
              text_selection_end := s1.cursor_position }

/-- The Ctrl+V branch of `keyPressEvent` while inline editing: when the
clipboard is non-empty, replace the selection (or insert at the cursor),
then collapse the selection onto the cursor. -/
def keyPressCtrlV (s : EditorState) (clipboard_text : List Char) : EditorState :=
  if clipboard_text ≠ [] then
    let s1 :=
      if s.text_selection_start ≠ s.text_selection_end then
        let start := min s.text_selection_start s.text_selection_end
        let stop := max s.text_selection_start s.text_selection_end
        { s with text_input_buffer :=
                   s.text_input_buffer.take start ++ clipboard_text ++
                     s.text_input_buffer.drop stop
                 cursor_position := start + clipboard_text.length }
      else
        { s with text_input_buffer :=
                   s.text_input_buffer.take s.cursor_position ++ clipboard_text ++
                     s.text_input_buffer.drop s.cursor_position
                 cursor_position := s.cursor_position + clipboard_text.length }
    { s1 with text_selection_start := s1.cursor_position
              text_selection_end := s1.cursor_position }
  else s

/-- `RegionSelectorWithDrawing.inputMethodEvent(event)`: while inline
editing, a non-empty commit string replaces the selection (collapsing it)
or is inserted at the cursor (the selection fields are *not* touched in
this branch), and the pre-edit state is cleared; afterwards the event's
pre-edit string is stored with its cursor at the end. -/
def inputMethodEvent (s : EditorState) (commitString preeditString : List Char) :
    EditorState :=
  if s.inline_editing then
    let s1 :=
      if commitString ≠ [] then
        let s2 :=
          if s.text_selection_start ≠ s.text_selection_end then
            let start := min s.text_selection_start s.text_selection_end
            let stop := max s.text_selection_start s.text_selection_end
            { s with text_input_buffer :=
                       s.text_input_buffer.take start ++ commitString ++
                         s.text_input_buffer.drop stop
                     cursor_position := start + commitString.length
                     text_selection_start := start + commitString.length
                     text_selection_end := start + commitString.length }
          else
            { s with text_input_buffer :=
                       s.text_input_buffer.take s.cursor_position ++ commitString ++
                         s.text_input_buffer.drop s.cursor_position
                     cursor_position := s.cursor_position + commitString.length }
        { s2 with preedit_text := [], preedit_cursor_pos := 0 }
      else s
    { s1 with preedit_text := preeditString
              preedit_cursor_pos := preeditString.length }
  else s

/-! ## Drawing-item model and rendering -/

/-- `tool_type` of a `DrawingItem` (the string values used in the source). -/
inductive Tool
  | pen | rectangle | circle | arrow | text
deriving DecidableEq, Repr

/-- RGBA color (`QColor`).  Only carried along; the lightness-based text
color adjustment of `DrawingItem.draw` is a rendering attribute not
recorded in the paint-command list. -/
structure Color where
  r : Int
  g : Int
  b : Int
  a : Int
deriving DecidableEq, Repr

/-- `text_size_mode` values: `"auto"` / `"custom"`. -/
inductive SizeMode
  | auto | custom
deriving DecidableEq, Repr

/-- A `DrawingItem` object (class at the top of
`region_selector_with_drawing.py`). -/
structure DItem where
  tool_type : Tool
  color : Color
  width : Int
  points : List Pt
  text_content : List Char
  text_size_mode : SizeMode
  custom_font_size : Int
  was_manually_resized : Bool
  initial_font_size : Int
deriving DecidableEq, Repr

/-- `DrawingItem.__init__(tool_type, color, width)`. -/
def mkDrawingItem (tool : Tool) (color : Color) (width : Int) : DItem :=
  { tool_type := tool, color := color, width := width, points := []
    text_content := [], text_size_mode := .auto, custom_font_size := 14
    was_manually_resized := false
    initial_font_size := if width > 0 then width else 14 }

/-- `DrawingItem.add_point(point)`: append to the point list. -/
def DItem.add_point (it : DItem) (p : Pt) : DItem :=
  { it with points := it.points ++ [p] }

/-- `points[0]` (call sites guard that the list is non-empty). -/
def pts0 (l : List Pt) : Pt := l.headD ⟨0, 0⟩

/-- `points[-1]` (call sites guard that the list is non-empty). -/
def ptsLast (l : List Pt) : Pt := l.getLastD ⟨0, 0⟩

/-- The painting primitives `DrawingItem.draw` emits, with their geometry.
Pen/brush attributes (color, stroke width, font) are not recorded; a
`dashedRect` is the dashed text-box border, a `handleEllipse` is one of the
four corner handles, a `fillRect` is the selection highlight, and
`wrapText` is `painter.drawText(text_rect, TextWordWrap, display_text)`. -/
inductive PaintCmd
  | line (a b : Pt)
  | rect (r : QRect)
  | ellipse (r : QRect)
  | dashedRect (r : QRect)
  | handleEllipse (r : QRect)
  | fillRect (r : QRect)
  | wrapText (r : QRect) (s : List Char)
deriving DecidableEq, Repr

/-- Whether a paint command is the word-wrapped text body
(`painter.drawText(text_rect, TextWordWrap, display_text)`). -/
def PaintCmd.isWrapText : PaintCmd → Bool
  | .wrapText _ _ => true
  | _ => false

/-- The device state `DrawingItem.draw` probes via `painter.device()`.
`hasInlineAttrs` is `hasattr(painter.device(), 'inline_editing')`: true for
the overlay widget (the attribute is set in `__init__`), false for the
`QPixmap` that `_create_composite_image` paints into. -/
structure PaintDeviceState where
  hasInlineAttrs : Bool
  inline_editing : Bool
  editingThis : Bool
  text_input_buffer : List Char
  cursor_position : Nat
  text_selection_start : Nat
  text_selection_end : Nat
  preedit_text : List Char
  preedit_cursor_pos : Nat

/-- The export device: the composite `QPixmap` has none of the widget's
inline-editing attributes. -/
def exportDevice : PaintDeviceState :=
  { hasInlineAttrs := false, inline_editing := false, editingThis := false
    text_input_buffer := [], cursor_position := 0, text_selection_start := 0
    text_selection_end := 0, preedit_text := [], preedit_cursor_pos := 0 }

/-- Abstraction of `QFontMetrics` for the font in use: text bounding-box
extents, average character width and line height.  (Font measurement is
done by Qt's text engine and is not computable here, so it is a
parameter.) -/
structure FontMetricsAbs where
  boundW : List Char → Int
  boundH : List Char → Int
  avgCharW : Int
  charH : Int

/-- `RegionSelectorWithDrawing._auto_expand_text_box(text_item, font,
text)`: grow the box's width/height (top-left fixed) to the measured text
bounds plus a 20px margin when the text exceeds the current box, then
re-clamp to the screen with `_constrain_to_screen`. -/
def autoExpandTextBox (W H : Int) (fm : FontMetricsAbs) (points : List Pt)
    (text : List Char) : List Pt :=
  if text = [] ∨ points.length < 2 then points
  else
    let required_width := fm.boundW text + 20
    let required_height := fm.boundH text + 20
    let current_rect := (QRect.ofPoints (pts0 points) (ptsLast points)).normalized
    let step1 :=
      if required_width > current_rect.width then
        (current_rect.setWidth required_width, true)
      else (current_rect, false)
    let step2 :=
      if required_height > current_rect.height then
        (step1.1.setHeight required_height, true)
      else step1
    if step2.2 then
      let points := points.set 1 step2.1.bottomRight
      let constrained := constrainToScreen W H step2.1
      let points := points.set 0 constrained.topLeft
      points.set 1 constrained.bottomRight
    else points

/-- `DrawingItem.draw(painter)` as the list of emitted paint commands.
`ahead` abstracts the floating-point arrowhead-endpoint computation
(`math.atan2/cos/sin`, lines 82-93): given the line's start and end it
yields the two arrowhead endpoints. -/
def DItem.draw (it : DItem) (W H : Int) (fm : FontMetricsAbs)
    (ahead : Pt → Pt → Pt × Pt) (dev : PaintDeviceState) : List PaintCmd :=
  match it.tool_type with
  | .pen =>
    if it.points.length > 1 then
      (it.points.zip it.points.tail).map fun ab => PaintCmd.line ab.1 ab.2
    else []
  | .rectangle =>
    if 2 ≤ it.points.length then
      [.rect ((QRect.ofPoints (pts0 it.points) (ptsLast it.points)).normalized)]
    else []
  | .circle =>
    if 2 ≤ it.points.length then
      [.ellipse ((QRect.ofPoints (pts0 it.points) (ptsLast it.points)).normalized)]
    else []
  | .arrow =>
    if 2 ≤ it.points.length then
      let s := pts0 it.points
      let e := ptsLast it.points
      let ah := ahead s e
      [.line s e, .line e ah.1, .line e ah.2]
    else []
  | .text =>
    if 1 ≤ it.points.length then
      let rectOpt : Option QRect :=
        if 2 ≤ it.points.length then
          some ((QRect.ofPoints (pts0 it.points) (ptsLast it.points)).normalized)
        else none
      let boxCmds : List PaintCmd :=
        match rectOpt with
        | some r =>
          [.dashedRect r,
           .handleEllipse (QRect.mk4 (r.left - 3) (r.top - 3) 6 6),
           .handleEllipse (QRect.mk4 (r.right - 3) (r.top - 3) 6 6),
           .handleEllipse (QRect.mk4 (r.left - 3) (r.bottom - 3) 6 6),
           .handleEllipse (QRect.mk4 (r.right - 3) (r.bottom - 3) 6 6)]
        | none => []
      if it.text_content ≠ [] ∨ dev.hasInlineAttrs then
        let rect0 : QRect :=
          match rectOpt with
          | some r => r
          | none =>
            (QRect.ofPoints (pts0 it.points) (pts0 it.points)).adjusted 0 0
              (max 40 (it.width * 8)) (max 24 (it.width * 6))
        let live := dev.hasInlineAttrs ∧ dev.inline_editing ∧ dev.editingThis
        let expPts :=
          if live then autoExpandTextBox W H fm it.points dev.text_input_buffer
          else it.points
        let rect1 :=
          if live then (QRect.ofPoints (pts0 expPts) (ptsLast expPts)).normalized
          else rect0
        let text_rect := rect1.adjusted 6 6 (-6) (-6)
        let hlCmds : List PaintCmd :=
          if live ∧ dev.text_selection_start ≠ dev.text_selection_end then
            let start_sel := min dev.text_selection_start dev.text_selection_end
            let end_sel := max dev.text_selection_start dev.text_selection_end
            let sel_start_x := text_rect.left + (start_sel : Int) * fm.avgCharW
            let sel_width := ((end_sel : Int) - (start_sel : Int)) * fm.avgCharW
            [.fillRect (QRect.mk4 sel_start_x text_rect.top sel_width fm.charH)]
          else []
        let d0 : List Char := if live then dev.text_input_buffer else it.text_content
        let d1 : List Char :=
          if live ∧ dev.cursor_position ≤ d0.length then
            d0.take dev.cursor_position ++ ['|'] ++ d0.drop dev.cursor_position
          else d0
        let d2 : List Char :=
          if live ∧ dev.preedit_text ≠ [] ∧
              (dev.cursor_position : Int) ≤ (d1.length : Int) - 1 then
            let base := dev.text_input_buffer
            let dtmp := base.take dev.cursor_position ++ dev.preedit_text ++
              base.drop dev.cursor_position
            let cip := dev.cursor_position + dev.preedit_cursor_pos
            dtmp.take cip ++ ['|'] ++ dtmp.drop cip
          else d1
        boxCmds ++ hlCmds ++ [.wrapText text_rect d2]
      else boxCmds
    else []

/-- `RegionSelectorWithDrawing._create_composite_image`, paint pass: the
screenshot pixmap is the background, then every committed item is drawn on
it in insertion order (the painter's device is the pixmap, which has no
inline-editing attributes), then the in-progress item if a drawing gesture
is active. -/
def createCompositeCmds (W H : Int) (fm : FontMetricsAbs)
    (ahead : Pt → Pt → Pt × Pt) (items : List DItem) (cur : Option DItem)
    (drawing_mode : Bool) : List PaintCmd :=
  (items.flatMap fun it => it.draw W H fm ahead exportDevice) ++
    (match cur with
     | some c => if drawing_mode then c.draw W H fm ahead exportDevice else []
     | none => [])

/-- A Rectangle/Circle/Arrow (or Pen) gesture: `mousePressEvent` creates
the item seeded with the press point, every `mouseMoveEvent` while drawing
calls `add_point(event.pos())`, and `mouseReleaseEvent` calls
`add_point(event.pos())` once more before committing the item. -/
def drawToolGesture (tool : Tool) (color : Color) (width : Int)
    (press : Pt) (moves : List Pt) (release : Pt) : DItem :=
  ((moves.foldl DItem.add_point
      ((mkDrawingItem tool color width).add_point press)).add_point release)

/-! ## Hit-testing (`mousePressEvent`, tool = select) -/

/-- `_get_resize_handles()`: the eight handle rectangles, in the
dictionary's insertion order, with `HANDLE_MARGIN = 5`, `HANDLE_SIZE = 10`. -/
def getResizeHandles (sel : QRect) : List (Handle × QRect) :=
  if sel.isEmpty then []
  else
    [(.topLeft, QRect.mk4 (sel.left - 5) (sel.top - 5) 10 10),
     (.topRight, QRect.mk4 (sel.right - 5) (sel.top - 5) 10 10),
     (.bottomLeft, QRect.mk4 (sel.left - 5) (sel.bottom - 5) 10 10),
     (.bottomRight, QRect.mk4 (sel.right - 5) (sel.bottom - 5) 10 10),
     (.top, QRect.mk4 (sel.centerX - 5) (sel.top - 5) 10 10),
     (.bottom, QRect.mk4 (sel.centerX - 5) (sel.bottom - 5) 10 10),
     (.left, QRect.mk4 (sel.left - 5) (sel.centerY - 5) 10 10),
     (.right, QRect.mk4 (sel.right - 5) (sel.centerY - 5) 10 10)]

/-- Corners of a text box, as the handle tags `"tl"/"tr"/"bl"/"br"`. -/
inductive TCorner
  | tl | tr | bl | br
deriving DecidableEq, Repr

/-- What a pointer press (tool = select, no active edit session, no
double-click) starts. -/
inductive PressAction
  | selResize (h : Handle)
  | textResize (idx : Nat) (c : TCorner)
  | textPressTimer (idx : Nat)
  | selDrag
  | newSelection
deriving DecidableEq, Repr

/-- The `for item in reversed(self.drawing_items)` loop of
`mousePressEvent`: for each text item with at least two points, its four
corner handles (12px reach) are checked, then the 8px-expanded body; the
first hit wins.  `items` carries the original list indices and is already
reversed. -/
def textHitScan : List (Nat × DItem) → Pt → Option PressAction
  | [], _ => none
  | (idx, it) :: rest, pos =>
    if it.tool_type = .text ∧ 2 ≤ it.points.length then
      let r := (QRect.ofPoints (pts0 it.points) (ptsLast it.points)).normalized
      let tl := QRect.mk4 (r.left - 12) (r.top - 12) 24 24
      let tr := QRect.mk4 (r.right - 12) (r.top - 12) 24 24
      let bl := QRect.mk4 (r.left - 12) (r.bottom - 12) 24 24
      let br := QRect.mk4 (r.right - 12) (r.bottom - 12) 24 24
      let expanded := r.adjusted (-8) (-8) 8 8
      if tl.containsPt pos then some (.textResize idx .tl)
      else if tr.containsPt pos then some (.textResize idx .tr)
      else if bl.containsPt pos then some (.textResize idx .bl)
      else if br.containsPt pos then some (.textResize idx .br)
      else if expanded.containsPt pos then some (.textPressTimer idx)
      else textHitScan rest pos
    else textHitScan rest pos

/-- The dispatch order of `mousePressEvent` with tool = select, no inline
edit session, no double-click, on a left press at `pos`: selection resize
handles first; then (inside the selection) text-item handles and bodies in
reverse insertion order; then the selection body (whole-rectangle drag);
otherwise a new selection starts. -/
def mousePressEventSelect (sel : QRect) (items : List DItem) (pos : Pt) :
    PressAction :=
  if sel.isEmpty then .newSelection
  else
    match (getResizeHandles sel).find? (fun hr => hr.2.containsPt pos) with
    | some hr => .selResize hr.1
    | none =>
      match (if sel.containsPt pos then textHitScan items.enum.reverse pos
             else none) with
      | some a => a
      | none => if sel.containsPt pos then .selDrag else .newSelection

/-! ## Whole-rectangle drags -/

/-- `mouseMoveEvent` while `self.dragging` (selection body drag):
`new_rect = QRect(event.pos() - self.drag_offset, self.selection_rect.size())`
then `_constrain_to_screen`. -/
def dragSelectionMove (W H : Int) (sel : QRect) (drag_offset pos : Pt) : QRect :=
  constrainToScreen W H (sel.withTopLeftSameSize (pos.sub drag_offset))

/-- `mouseMoveEvent` while `self.text_dragging` (text-box body drag):
`new_rect = QRect(r.topLeft() + delta, r.size())` then
`_constrain_to_screen`, where `r` is the normalized text box and `delta`
the pointer delta since the drag anchor. -/
def dragTextMove (W H : Int) (r : QRect) (delta : Pt) : QRect :=
  constrainToScreen W H (r.withTopLeftSameSize (r.topLeft.add delta))

/-! ## Font-size keys while text editing -/

/-- The Up-arrow branch of `keyPressEvent` while inline editing: step the
font size up by 2, capped above at 100 (no lower cap), starting from
`custom_font_size` in custom mode and from `initial_font_size` otherwise;
switch the item to custom mode. -/
def keyPressUp (it : DItem) : DItem :=
  let current :=
    if it.text_size_mode ≠ .custom then it.initial_font_size
    else it.custom_font_size
  { it with text_size_mode := .custom, custom_font_size := min 100 (current + 2) }

/-- The Down-arrow branch of `keyPressEvent` while inline editing: step the
font size down by 2, capped below at 8 (no upper cap); switch the item to
custom mode. -/
def keyPressDown (it : DItem) : DItem :=
  let current :=
    if it.text_size_mode ≠ .custom then it.initial_font_size
    else it.custom_font_size
  { it with text_size_mode := .custom, custom_font_size := max 8 (current - 2) }

/-! ## Concrete instances used in the claim checks -/

/-- Trivial font metrics (the export paint pass never consults them). -/
def fmZero : FontMetricsAbs := ⟨fun _ => 0, fun _ => 0, 0, 0⟩

/-- Trivial arrowhead geometry (unused by text items). -/
def aheadZero : Pt → Pt → Pt × Pt := fun _ e => (e, e)

/-- A committed Text item: box `(10,10)-(100,50)`, content `"hi"`, created
with the default stroke width 3. -/
def textItemHi : DItem :=
  { mkDrawingItem .text ⟨255, 0, 0, 255⟩ 3 with points := [⟨10, 10⟩, ⟨100, 50⟩], text_content := "hi".data }

/-- A committed Text item whose box top-left corner `(105,105)` puts its
top-left resize handle over the selection's top-left handle. -/
def textItemNearCorner : DItem :=
  { mkDrawingItem .text ⟨255, 0, 0, 255⟩ 3 with points := [⟨105, 105⟩, ⟨200, 160⟩], text_content := "t".data }

/-- An editor state reached by: Text-tool click creating item 7, typing
`h` then `i`, two Left-arrow presses (cursor to 0, selection collapsed at
0), Enter (finish, saving `"hi"`), then double-click re-opening the item
for editing.  The re-opened session has buffer `"hi"`, cursor 2, and the
stale collapsed selection `(0,0)` — the selection fields are not reset by
`_start_inline_text_editing`. -/
def reopenedHiSession : EditorState :=
  startInlineTextEditing
    (finishInlineTextEditing
      (keyPressLeft
        (keyPressLeft
          (keyPressText (keyPressText (handleTextInput initState 7) ['h']) ['i'])
          false)
        false))
    7

/-- A state editing the pre-existing text item 7 (content `"Hi"`, in both
the committed list and the undo stack), buffer loaded with `"Hi"`. -/
def editingHiState : EditorState :=
  { initState with drawing_items := [7], undo_stack := [7], contents := [(7, "Hi".data)], inline_editing := true, editing_text_item := some 7, text_input_buffer := "Hi".data, cursor_position := 2 }

/-- `constrainPos` is the identity on a rectangle already inside the
screen. -/
theorem constrainPos_id (W H : Int) (r : QRect)
    (hx1 : 0 ≤ r.x1) (hx2 : r.x2 ≤ W) (hy1 : 0 ≤ r.y1) (hy2 : r.y2 ≤ H) :
    constrainPos W H r = r := by
  simp only [constrainPos, QRect.left, QRect.top, QRect.right, QRect.bottom,
    QRect.moveLeft, QRect.moveTop, QRect.moveRight, QRect.moveBottom]
  split_ifs <;> (try dsimp only at *) <;> first | rfl | omega

/-- `constrainMinSize` output: left/top unchanged, extents at least 20. -/
theorem constrainMinSize_spec (r : QRect) :
    (constrainMinSize r).x1 = r.x1 ∧ (constrainMinSize r).y1 = r.y1 ∧
      20 ≤ (constrainMinSize r).width ∧ 20 ≤ (constrainMinSize r).height ∧
      ((constrainMinSize r).x2 = r.x2 ∨ (constrainMinSize r).x2 = r.x1 + 19) ∧
      ((constrainMinSize r).y2 = r.y2 ∨ (constrainMinSize r).y2 = r.y1 + 19) := by
  simp only [constrainMinSize, MIN_SELECTION_SIZE, QRect.width, QRect.height,
    QRect.setWidth, QRect.setHeight]
  split_ifs <;> (try dsimp only at *) <;> omega

/-- `constrainFinal` output bounds, for an input of the shape
`constrainMinSize ∘ constrainPos` produces: nonnegative left/top, extents at
least 20, and each far edge either already inside the screen or pushed out
only by the minimum-size enforcement (extent exactly 20). -/
theorem constrainFinal_bounds (W H : Int) (hW : 20 ≤ W) (hH : 20 ≤ H) (r : QRect)
    (hx1 : 0 ≤ r.x1) (hy1 : 0 ≤ r.y1) (hw : 20 ≤ r.width) (hh : 20 ≤ r.height)
    (hxalt : r.x2 ≤ W ∨ r.width = 20) (hyalt : r.y2 ≤ H ∨ r.height = 20) :
    SelInvActual W H (constrainFinal W H r) := by
  simp only [SelInvActual, constrainFinal, MIN_SELECTION_SIZE, QRect.left, QRect.top,
    QRect.right, QRect.bottom, QRect.width, QRect.height, QRect.moveLeft, QRect.moveTop] at *
  split_ifs <;> (try dsimp only at *) <;> omega

/-- `_constrain_to_screen` output bounds: for any input rectangle whose
left/top are already nonnegative and whose right/bottom are already within
the screen, the result satisfies the actual invariant. -/
theorem constrainToScreen_bounds (W H : Int) (hW : 20 ≤ W) (hH : 20 ≤ H)
    (r : QRect) (hx1 : 0 ≤ r.x1) (hx2 : r.x2 ≤ W) (hy1 : 0 ≤ r.y1) (hy2 : r.y2 ≤ H) :
    SelInvActual W H (constrainToScreen W H r) := by
  unfold constrainToScreen
  rw [constrainPos_id W H r hx1 hx2 hy1 hy2]
  obtain ⟨e1, e2, e3, e4, e5, e6⟩ := constrainMinSize_spec r
  refine constrainFinal_bounds W H hW hH _ (by omega) (by omega) e3 e4 ?_ ?_ <;>
    simp only [QRect.width, QRect.height] at * <;> omega


/-- After a resize edge move with an on-screen pointer, the normalized
rectangle's corners still lie inside the screen (inclusive coordinates). -/
theorem resizeEdges_corner_bounds (W H : Int) (sel : QRect)
    (hx1 : 0 ≤ sel.x1) (hx2 : sel.x2 ≤ W) (hy1 : 0 ≤ sel.y1) (hy2 : sel.y2 ≤ H)
    (hxo : sel.x1 ≤ sel.x2) (hyo : sel.y1 ≤ sel.y2) (h : Handle) (p : Pt)
    (hp : onScreenPos W H p) :
    0 ≤ ((resizeEdges sel h p).normalized).x1 ∧
      ((resizeEdges sel h p).normalized).x2 ≤ W ∧
      0 ≤ ((resizeEdges sel h p).normalized).y1 ∧
      ((resizeEdges sel h p).normalized).y2 ≤ H := by
  obtain ⟨p1, p2, p3, p4⟩ := hp
  cases h <;>
    simp only [resizeEdges, Handle.hasLeft, Handle.hasRight, Handle.hasTop,
      Handle.hasBottom, QRect.setLeft, QRect.setRight, QRect.setTop, QRect.setBottom,
      QRect.normalized, if_true, if_false, Bool.false_eq_true, ite_false, ite_true] <;>
    split_ifs <;> (try dsimp only at *) <;> omega

/-- One resize-handle drag step preserves the actual invariant, provided the
pointer stays on the screen. -/
theorem resizeSelection_inv (W H : Int) (hW : 20 ≤ W) (hH : 20 ≤ H)
    (sel : QRect) (hinv : SelInvActual W H sel) (h : Handle) (p : Pt)
    (hp : onScreenPos W H p) :
    SelInvActual W H (resizeSelection W H sel h p) := by
  obtain ⟨i1, i2, i3, i4, i5, i6⟩ := hinv
  simp only [QRect.left, QRect.top, QRect.width, QRect.height, MIN_SELECTION_SIZE]
    at i1 i2 i3 i4 i5 i6
  obtain ⟨b1, b2, b3, b4⟩ :=
    resizeEdges_corner_bounds W H sel i1 (by omega) i2 (by omega)
      (by omega) (by omega) h p hp
  exact constrainToScreen_bounds W H hW hH _ b1 b2 b3 b4

/-! ## Claim C1 -/

/-- C1 (counterexample): the claimed invariant `x + w ≤ screen_w` is not
preserved by resize drags.  On a 1920×1080 screen, start from the selection
`(1900, 100, 20, 20)` (which satisfies the claimed invariant) and drag the
`left` handle to the on-screen pointer position `(1901, 150)`: the grabbed
edge move makes the width 19, the minimum-size enforcement extends the
right edge to `x1 + 19 = 1920 = screen_w` (inclusive coordinate), and the
final boundary check `right() > screen_w` does not fire, leaving the
rectangle `(1901, 100, 20, 20)` with `x + w = 1921 > 1920`.  The starting
rectangle is itself reachable: it is exactly the selection created by a
drag from `(1900, 100)` to `(1919, 119)`. -/
theorem C1_counterexample :
    updateSelectionRect 1920 1080 ⟨1900, 100⟩ ⟨1919, 119⟩ = QRect.mk4 1900 100 20 20 ∧
    SelInvClaimed 1920 1080 (QRect.mk4 1900 100 20 20) ∧
    onScreenPos 1920 1080 ⟨1901, 150⟩ ∧
    runResizeDrags 1920 1080 (QRect.mk4 1900 100 20 20) [(Handle.left, ⟨1901, 150⟩)] =
      QRect.mk4 1901 100 20 20 ∧
    ¬ SelInvClaimed 1920 1080
      (runResizeDrags 1920 1080 (QRect.mk4 1900 100 20 20) [(Handle.left, ⟨1901, 150⟩)]) := by
  decide

/-- C1 (amended): for every sequence of resize-handle drags with on-screen
pointer positions, on a screen of size `W × H` (`W, H ≥ 20`), starting from
a rectangle satisfying `x ≥ 0, y ≥ 0, x + w ≤ W + 1, y + h ≤ H + 1,
w ≥ 20, h ≥ 20`, the resulting selection rectangle still satisfies exactly
these bounds.  The exclusive right/bottom bound is `W + 1` (one pixel
looser than the claimed `x + w ≤ W`) because `_constrain_to_screen` clamps
Qt's inclusive coordinate `right() = x + w - 1` to `W`. -/
theorem C1_resize_drags_keep_selection_in_bounds
    (W H : Int) (hW : 20 ≤ W) (hH : 20 ≤ H) (start : QRect)
    (hstart : SelInvActual W H start) (drags : List (Handle × Pt))
    (hdrags : ∀ d ∈ drags, onScreenPos W H d.2) :
    SelInvActual W H (runResizeDrags W H start drags) := by
  induction drags generalizing start with
  | nil => exact hstart
  | cons d rest ih =>
    exact ih (resizeSelection W H start d.1 d.2)
      (resizeSelection_inv W H hW hH start hstart d.1 d.2 (hdrags d (by simp)))
      (fun x hx => hdrags x (by simp [hx]))

/-- C1 (witness): the amended theorem applied on a 1920×1080 screen to the
selection `(0, 0, 20, 20)` and a drag of the bottom-right handle to
`(500, 300)`. -/
theorem C1_witness :
    (20 : Int) ≤ 1920 ∧ (20 : Int) ≤ 1080 ∧
    SelInvActual 1920 1080 (QRect.mk4 0 0 20 20) ∧
    (∀ d ∈ [((Handle.bottomRight : Handle), (⟨500, 300⟩ : Pt))], onScreenPos 1920 1080 d.2) ∧
    SelInvActual 1920 1080 (runResizeDrags 1920 1080 (QRect.mk4 0 0 20 20)
      [(Handle.bottomRight, ⟨500, 300⟩)]) :=
  ⟨by decide, by decide, by decide, by decide,
    C1_resize_drags_keep_selection_in_bounds 1920 1080 (by decide) (by decide)
      (QRect.mk4 0 0 20 20) (by decide) [(Handle.bottomRight, ⟨500, 300⟩)] (by decide)⟩

/-! ## Claim C2 -/

/-- C2: from any history state, committing a freshly created drawing item
(`item` is a new Python object, so not already in the committed list) and
then undoing restores `drawing_items` and `undo_stack` exactly to their
pre-commit values, and redoing after that undo restores the entire
post-commit state (round-trip law). -/
theorem C2_undo_commit_roundtrip (s : EditorState) (i : Nat)
    (hfresh : i ∉ s.drawing_items) :
    (undoDrawing (commitDrawing s i)).drawing_items = s.drawing_items ∧
    (undoDrawing (commitDrawing s i)).undo_stack = s.undo_stack ∧
    redoDrawing (undoDrawing (commitDrawing s i)) = commitDrawing s i := by
  have h1 : (s.undo_stack ++ [i]).getLast? = some i := List.getLast?_concat _
  have h2 : (s.drawing_items ++ [i]).erase i = s.drawing_items := by
    rw [List.erase_append_right _ hfresh, List.erase_cons_head, List.append_nil]
  simp only [commitDrawing, undoDrawing, redoDrawing, h1, h2, List.dropLast_concat,
    List.mem_append, List.mem_singleton, or_true, if_true, List.nil_append,
    List.getLast?_singleton, List.dropLast_single]
  refine ⟨by trivial, by trivial, by trivial⟩

/-- C2 (witness): the round-trip law applied to the state with committed
list `[3]`, undo stack `[3]`, redo stack `[9]` and the fresh item `4`. -/
theorem C2_witness :
    (4 ∉ ({ initState with drawing_items := [3], undo_stack := [3], redo_stack := [9] } : EditorState).drawing_items) ∧
    ((undoDrawing (commitDrawing { initState with drawing_items := [3], undo_stack := [3], redo_stack := [9] } 4)).drawing_items = [3] ∧
     (undoDrawing (commitDrawing { initState with drawing_items := [3], undo_stack := [3], redo_stack := [9] } 4)).undo_stack = [3] ∧
     redoDrawing (undoDrawing (commitDrawing { initState with drawing_items := [3], undo_stack := [3], redo_stack := [9] } 4)) =
       commitDrawing { initState with drawing_items := [3], undo_stack := [3], redo_stack := [9] } 4) :=
  ⟨by decide,
    C2_undo_commit_roundtrip
      { initState with drawing_items := [3], undo_stack := [3], redo_stack := [9] } 4
      (by decide)⟩

/-! ## Claim C4 -/

/-- C4: a text-editing session that ends with a blank (empty or
whitespace-only) buffer leaves `drawing_items` and `undo_stack` exactly as
they were before the session started.  The session appended the freshly
created item `i` to both lists (`_handle_text_input`, or the drag path of
`mouseReleaseEvent`), so at finish time they are `d ++ [i]` and `u ++ [i]`
with `i` fresh; `_finish_inline_text_editing` removes `i` from both, and
`i` is in none of the three history lists afterwards (never undoable or
redoable as a blank entry). -/
theorem C4_blank_session_restores_lists (s : EditorState) (i : Nat) (d u : List Nat)
    (hie : s.inline_editing = true) (hei : s.editing_text_item = some i)
    (hblank : pyStrip s.text_input_buffer = [])
    (hd : s.drawing_items = d ++ [i]) (hu : s.undo_stack = u ++ [i])
    (hdn : i ∉ d) (hun : i ∉ u) (hr : i ∉ s.redo_stack) :
    (finishInlineTextEditing s).drawing_items = d ∧
    (finishInlineTextEditing s).undo_stack = u ∧
    i ∉ (finishInlineTextEditing s).drawing_items ∧
    i ∉ (finishInlineTextEditing s).undo_stack ∧
    i ∉ (finishInlineTextEditing s).redo_stack := by
  have hd2 : (d ++ [i]).erase i = d := by
    rw [List.erase_append_right _ hdn, List.erase_cons_head, List.append_nil]
  have hu2 : (u ++ [i]).erase i = u := by
    rw [List.erase_append_right _ hun, List.erase_cons_head, List.append_nil]
  simp only [finishInlineTextEditing, hie, hei, hblank, ne_eq, not_true_eq_false,
    if_true, ite_false, if_false, hd, hu, hd2, hu2, List.mem_append,
    List.mem_singleton, or_true, ite_true]
  exact ⟨trivial, trivial, hdn, hun, hr⟩

/-- C4 (witness): a Text-tool click creates item 5
(`_handle_text_input`), nothing is typed, and the session finishes with the
blank buffer: both lists return to `[]`. -/
theorem C4_witness :
    ((handleTextInput initState 5).inline_editing = true ∧
     (handleTextInput initState 5).editing_text_item = some 5 ∧
     pyStrip (handleTextInput initState 5).text_input_buffer = [] ∧
     (handleTextInput initState 5).drawing_items = [] ++ [5] ∧
     (handleTextInput initState 5).undo_stack = [] ++ [5]) ∧
    ((finishInlineTextEditing (handleTextInput initState 5)).drawing_items = [] ∧
     (finishInlineTextEditing (handleTextInput initState 5)).undo_stack = [] ∧
     5 ∉ (finishInlineTextEditing (handleTextInput initState 5)).drawing_items ∧
     5 ∉ (finishInlineTextEditing (handleTextInput initState 5)).undo_stack ∧
     5 ∉ (finishInlineTextEditing (handleTextInput initState 5)).redo_stack) :=
  ⟨by decide,
    C4_blank_session_restores_lists (handleTextInput initState 5) 5 [] []
      (by decide) (by decide) (by decide) (by decide) (by decide)
      (by decide) (by decide) (by decide)⟩

/-! ## Claim C5 -/

/-- C5 (counterexample): Escape during an edit of a *pre-existing* text
item does **not** leave it in the committed list.  Item 7 already has
`text_content = "Hi"` and sits in `drawing_items` and `undo_stack`; a
session is active on it with buffer `"Hi"`.  The Escape branch of
`keyPressEvent` removes it from `drawing_items` unconditionally, so the
committed list becomes `[]` — contradicting the claim that a pre-existing
item "remains in the committed list" — while the item is still on the undo
stack and its `text_content` survives. -/
theorem C5_counterexample :
    editingHiState.drawing_items = [7] ∧
    (keyPressEscape editingHiState).drawing_items = [] ∧
    7 ∉ (keyPressEscape editingHiState).drawing_items ∧
    (keyPressEscape editingHiState).undo_stack = [7] ∧
    getTextContent (keyPressEscape editingHiState).contents 7 = "Hi".data ∧
    (keyPressEscape editingHiState).cancelled = false := by
  decide

/-- C5 (amended): Escape while a text-editing session is active discards
the in-progress edit and returns to the Selected state without cancelling
the overlay, and the edited item is removed from the committed list
**unconditionally** — not only when newly created and empty.  A pre-existing
item keeps (or updates to the final buffer) its `text_content` and keeps
its undo-stack entry when the buffer is non-blank, but it does not remain
in the committed list; only with a blank buffer is it also removed from the
undo stack. -/
theorem C5_escape_discards_edit (s : EditorState) (i : Nat)
    (hie : s.inline_editing = true) (hei : s.editing_text_item = some i)
    (hnd : s.drawing_items.Nodup) :
    (keyPressEscape s).cancelled = s.cancelled ∧
    (keyPressEscape s).inline_editing = false ∧
    (keyPressEscape s).editing_text_item = none ∧
    i ∉ (keyPressEscape s).drawing_items ∧
    (pyStrip s.text_input_buffer ≠ [] →
      (keyPressEscape s).undo_stack = s.undo_stack ∧
      (keyPressEscape s).contents = setTextContent s.contents i s.text_input_buffer) ∧
    (pyStrip s.text_input_buffer = [] →
      (keyPressEscape s).undo_stack =
        if i ∈ s.undo_stack then s.undo_stack.erase i else s.undo_stack) := by
  have hrm : i ∉ (if i ∈ s.drawing_items then s.drawing_items.erase i
      else s.drawing_items) := by
    split_ifs with hmem
    · exact hnd.not_mem_erase
    · exact hmem
  refine ⟨?_, ?_, ?_, ?_, ?_, ?_⟩ <;>
    by_cases hb : pyStrip s.text_input_buffer = [] <;>
    simp [keyPressEscape, finishInlineTextEditing, hie, hei, hb, hrm]

/-- C5 (witness): the amended theorem applied to the state editing the
pre-existing item 7 with buffer `"Hi"`. -/
theorem C5_witness :
    (editingHiState.inline_editing = true ∧
     editingHiState.editing_text_item = some 7 ∧
     editingHiState.drawing_items.Nodup) ∧
    ((keyPressEscape editingHiState).cancelled = editingHiState.cancelled ∧
     (keyPressEscape editingHiState).inline_editing = false ∧
     (keyPressEscape editingHiState).editing_text_item = none ∧
     7 ∉ (keyPressEscape editingHiState).drawing_items ∧
     (pyStrip editingHiState.text_input_buffer ≠ [] →
       (keyPressEscape editingHiState).undo_stack = editingHiState.undo_stack ∧
       (keyPressEscape editingHiState).contents =
         setTextContent editingHiState.contents 7 editingHiState.text_input_buffer) ∧
     (pyStrip editingHiState.text_input_buffer = [] →
       (keyPressEscape editingHiState).undo_stack =
         if 7 ∈ editingHiState.undo_stack then editingHiState.undo_stack.erase 7
         else editingHiState.undo_stack)) :=
  ⟨⟨by decide, by decide, by decide⟩,
    C5_escape_discards_edit editingHiState 7 (by decide) (by decide) (by decide)⟩

/-! ## Claim C6 -/

/-- C6 (counterexample): a pointer move during an Arrow gesture *appends*
a point instead of updating the second corner.  Dragging from `(150,150)`
through `(200,150)` to `(250,150)` commits an item with points
`[(150,150), (200,150), (250,150)]`, not the claimed two corner points
`[(150,150), (250,150)]`. -/
theorem C6_counterexample :
    (drawToolGesture .arrow ⟨255, 0, 0, 255⟩ 3 ⟨150, 150⟩ [⟨200, 150⟩] ⟨250, 150⟩).points ≠
      [⟨150, 150⟩, ⟨250, 150⟩] ∧
    (drawToolGesture .arrow ⟨255, 0, 0, 255⟩ 3 ⟨150, 150⟩ [⟨200, 150⟩] ⟨250, 150⟩).points =
      [⟨150, 150⟩, ⟨200, 150⟩, ⟨250, 150⟩] := by
  decide

/-- C6 (amended): for every Rectangle/Circle/Arrow (or Pen) gesture, each
pointer move appends the current point (`add_point` in `mouseMoveEvent` —
the same code path for all tools), and the release appends the release
point; the committed item's point list is the press point followed by every
move position and the release position.  The *rendered* shape uses only
`points[0]` and `points[-1]`, so it looks like the two corner points, but
the committed list keeps every intermediate position. -/
theorem C6_shape_gesture_points (tool : Tool) (c : Color) (w : Int)
    (press release : Pt) (moves : List Pt) :
    (drawToolGesture tool c w press moves release).points =
      press :: (moves ++ [release]) := by
  have hfold : ∀ (l : List Pt) (it : DItem),
      (l.foldl DItem.add_point it).points = it.points ++ l := by
    intro l
    induction l with
    | nil => intro it; simp
    | cons x xs ih => intro it; simp [DItem.add_point, ih]
  simp [drawToolGesture, DItem.add_point, mkDrawingItem, hfold]

/-! ## Claim C9 -/

/-- C9 (counterexample): the claimed clamp to `[8, 100]` fails.  A text
item created with the default stroke width 3 (`self.drawing_width = 3` in
`__init__`) has `initial_font_size = 3` and starts in auto mode; the first
Up-arrow press computes `min(100, 3 + 2) = 5`, which is below the claimed
lower bound 8 (the Up branch has no lower clamp). -/
theorem C9_counterexample :
    (keyPressUp (mkDrawingItem .text ⟨255, 0, 0, 255⟩ 3)).custom_font_size = 5 ∧
    (keyPressUp (mkDrawingItem .text ⟨255, 0, 0, 255⟩ 3)).text_size_mode = .custom ∧
    ¬ (8 ≤ (keyPressUp (mkDrawingItem .text ⟨255, 0, 0, 255⟩ 3)).custom_font_size) := by
  decide

/-- C9 (amended): while text editing, Up computes
`custom_font_size = min 100 (current + 2)` (clamped above only) and Down
computes `max 8 (current - 2)` (clamped below only), where `current` is
`custom_font_size` in Custom mode and `initial_font_size` otherwise; either
key switches the item to Custom mode.  Hence Up never exceeds 100 and Down
never goes below 8, but Up can produce a value below 8 (and the step is 2
only when the cap does not bind). -/
theorem C9_font_size_step (it : DItem) :
    (keyPressUp it).text_size_mode = .custom ∧
    (keyPressDown it).text_size_mode = .custom ∧
    (keyPressUp it).custom_font_size =
      min 100 ((if it.text_size_mode ≠ .custom then it.initial_font_size
                else it.custom_font_size) + 2) ∧
    (keyPressDown it).custom_font_size =
      max 8 ((if it.text_size_mode ≠ .custom then it.initial_font_size
              else it.custom_font_size) - 2) ∧
    (keyPressUp it).custom_font_size ≤ 100 ∧
    8 ≤ (keyPressDown it).custom_font_size := by
  unfold keyPressUp keyPressDown
  refine ⟨rfl, rfl, rfl, rfl, ?_, ?_⟩ <;> dsimp only <;> split_ifs <;> omega

/-! ## Claim C10 -/

/-- `constrainMinSize` is the identity when both extents are at least 20. -/
theorem constrainMinSize_id (r : QRect) (hw : 20 ≤ r.width) (hh : 20 ≤ r.height) :
    constrainMinSize r = r := by
  simp only [constrainMinSize, MIN_SELECTION_SIZE, QRect.width, QRect.height,
    QRect.setWidth, QRect.setHeight] at *
  split_ifs <;> (try dsimp only at *) <;> first | rfl | omega

/-- `constrainFinal` is the identity when the far corners are inside the
screen. -/
theorem constrainFinal_id (W H : Int) (r : QRect) (hx2 : r.x2 ≤ W) (hy2 : r.y2 ≤ H) :
    constrainFinal W H r = r := by
  simp only [constrainFinal, QRect.right, QRect.bottom, QRect.width, QRect.height,
    QRect.moveLeft, QRect.moveTop] at *
  split_ifs <;> (try dsimp only at *) <;> first | rfl | omega

/-- `_constrain_to_screen` is the identity on a rectangle that already
satisfies the claimed bounds. -/
theorem constrainToScreen_id (W H : Int) (r : QRect)
    (hx1 : 0 ≤ r.x1) (hy1 : 0 ≤ r.y1) (hx2 : r.x2 ≤ W) (hy2 : r.y2 ≤ H)
    (hw : 20 ≤ r.width) (hh : 20 ≤ r.height) :
    constrainToScreen W H r = r := by
  unfold constrainToScreen
  rw [constrainPos_id W H r hx1 hx2 hy1 hy2, constrainMinSize_id r hw hh,
    constrainFinal_id W H r hx2 hy2]

/-- C10: a whole-selection drag move or a text-box body drag move whose
translated rectangle satisfies the minimum size and fits in the screen
(`x ≥ 0, y ≥ 0, x + w ≤ W, y + h ≤ H, w ≥ 20, h ≥ 20`) changes only
position: the width and height after the move equal those before. -/
theorem C10_drag_moves_preserve_size (W H : Int) (sel r : QRect)
    (off pos delta : Pt)
    (hsel : SelInvClaimed W H (sel.withTopLeftSameSize (pos.sub off)))
    (htxt : SelInvClaimed W H (r.withTopLeftSameSize (r.topLeft.add delta))) :
    (dragSelectionMove W H sel off pos).width = sel.width ∧
    (dragSelectionMove W H sel off pos).height = sel.height ∧
    (dragTextMove W H r delta).width = r.width ∧
    (dragTextMove W H r delta).height = r.height := by
  obtain ⟨a1, a2, a3, a4, a5, a6⟩ := hsel
  obtain ⟨b1, b2, b3, b4, b5, b6⟩ := htxt
  simp only [QRect.left, QRect.top, QRect.width, QRect.height, MIN_SELECTION_SIZE,
    QRect.withTopLeftSameSize] at a1 a2 a3 a4 a5 a6 b1 b2 b3 b4 b5 b6
  have e1 : constrainToScreen W H (sel.withTopLeftSameSize (pos.sub off)) =
      sel.withTopLeftSameSize (pos.sub off) := by
    apply constrainToScreen_id <;>
      simp only [QRect.withTopLeftSameSize, QRect.width, QRect.height] <;> omega
  have e2 : constrainToScreen W H (r.withTopLeftSameSize (r.topLeft.add delta)) =
      r.withTopLeftSameSize (r.topLeft.add delta) := by
    apply constrainToScreen_id <;>
      simp only [QRect.withTopLeftSameSize, QRect.width, QRect.height] <;> omega
  unfold dragSelectionMove dragTextMove
  rw [e1, e2]
  simp only [QRect.withTopLeftSameSize, QRect.width, QRect.height]
  omega

/-- C10 (witness): on a 1920×1080 screen, dragging the selection
`(100, 100, 200, 150)` (press offset `(10, 10)`, pointer at `(50, 60)`)
and a text box `(300, 300, 40, 30)` by `(5, 7)` preserves both sizes. -/
theorem C10_witness :
    SelInvClaimed 1920 1080 ((QRect.mk4 100 100 200 150).withTopLeftSameSize
      ((⟨50, 60⟩ : Pt).sub ⟨10, 10⟩)) ∧
    SelInvClaimed 1920 1080 ((QRect.mk4 300 300 40 30).withTopLeftSameSize
      ((QRect.mk4 300 300 40 30).topLeft.add ⟨5, 7⟩)) ∧
    ((dragSelectionMove 1920 1080 (QRect.mk4 100 100 200 150) ⟨10, 10⟩ ⟨50, 60⟩).width =
        (QRect.mk4 100 100 200 150).width ∧
     (dragSelectionMove 1920 1080 (QRect.mk4 100 100 200 150) ⟨10, 10⟩ ⟨50, 60⟩).height =
        (QRect.mk4 100 100 200 150).height ∧
     (dragTextMove 1920 1080 (QRect.mk4 300 300 40 30) ⟨5, 7⟩).width =
        (QRect.mk4 300 300 40 30).width ∧
     (dragTextMove 1920 1080 (QRect.mk4 300 300 40 30) ⟨5, 7⟩).height =
        (QRect.mk4 300 300 40 30).height) :=
  ⟨by decide, by decide,
    C10_drag_moves_preserve_size 1920 1080 (QRect.mk4 100 100 200 150)
      (QRect.mk4 300 300 40 30) ⟨10, 10⟩ ⟨50, 60⟩ ⟨5, 7⟩ (by decide) (by decide)⟩

/-! ## Claim C3 -/

/-- C3 (counterexample): the exported composite is **not** only the
word-wrapped text.  For the committed Text item with box
`(10,10)-(100,50)` and content `"hi"`, the export paint pass
(`_create_composite_image`, painting into a `QPixmap` with no
inline-editing attributes) emits the dashed bounding box and the four
corner handles — `DrawingItem.draw` draws them unconditionally whenever the
item has two points, before any device check. -/
theorem C3_counterexample :
    PaintCmd.dashedRect (QRect.mk4 10 10 91 41) ∈
      createCompositeCmds 1920 1080 fmZero aheadZero [textItemHi] none false ∧
    PaintCmd.handleEllipse (QRect.mk4 7 7 6 6) ∈
      createCompositeCmds 1920 1080 fmZero aheadZero [textItemHi] none false ∧
    ¬ (∀ cmd ∈ createCompositeCmds 1920 1080 fmZero aheadZero [textItemHi] none false,
        cmd.isWrapText = true) := by
  decide

/-- C3 (amended): for every Text drawing item with at least two points, the
draw pass emits the dashed bounding box and all four corner handles for
**every** device — the live overlay *and* the export composite alike; the
box and handles are not editing-only affordances of the on-screen pass. -/
theorem C3_text_box_and_handles_always_drawn (it : DItem) (W H : Int)
    (fm : FontMetricsAbs) (ahead : Pt → Pt → Pt × Pt) (dev : PaintDeviceState)
    (htool : it.tool_type = .text) (hpts : 2 ≤ it.points.length) :
    PaintCmd.dashedRect ((QRect.ofPoints (pts0 it.points) (ptsLast it.points)).normalized) ∈
      it.draw W H fm ahead dev ∧
    PaintCmd.handleEllipse (QRect.mk4
        (((QRect.ofPoints (pts0 it.points) (ptsLast it.points)).normalized).left - 3)
        (((QRect.ofPoints (pts0 it.points) (ptsLast it.points)).normalized).top - 3) 6 6) ∈
      it.draw W H fm ahead dev ∧
    PaintCmd.handleEllipse (QRect.mk4
        (((QRect.ofPoints (pts0 it.points) (ptsLast it.points)).normalized).right - 3)
        (((QRect.ofPoints (pts0 it.points) (ptsLast it.points)).normalized).top - 3) 6 6) ∈
      it.draw W H fm ahead dev ∧
    PaintCmd.handleEllipse (QRect.mk4
        (((QRect.ofPoints (pts0 it.points) (ptsLast it.points)).normalized).left - 3)
        (((QRect.ofPoints (pts0 it.points) (ptsLast it.points)).normalized).bottom - 3) 6 6) ∈
      it.draw W H fm ahead dev ∧
    PaintCmd.handleEllipse (QRect.mk4
        (((QRect.ofPoints (pts0 it.points) (ptsLast it.points)).normalized).right - 3)
        (((QRect.ofPoints (pts0 it.points) (ptsLast it.points)).normalized).bottom - 3) 6 6) ∈
      it.draw W H fm ahead dev := by
  rcases it with ⟨tool, color, width, points, tc, sm, cfs, mr, ifz⟩
  simp only at htool hpts ⊢
  subst htool
  have h1 : (1 : Nat) ≤ points.length := by omega
  simp only [DItem.draw, hpts, h1, ite_true, if_true]
  split_ifs <;> simp

/-- C3 (witness): the amended theorem applied to the `"hi"` text item on
the export device. -/
theorem C3_witness :
    (textItemHi.tool_type = .text ∧ 2 ≤ textItemHi.points.length) ∧
    (PaintCmd.dashedRect ((QRect.ofPoints (pts0 textItemHi.points) (ptsLast textItemHi.points)).normalized) ∈
      textItemHi.draw 1920 1080 fmZero aheadZero exportDevice ∧
     PaintCmd.handleEllipse (QRect.mk4
        (((QRect.ofPoints (pts0 textItemHi.points) (ptsLast textItemHi.points)).normalized).left - 3)
        (((QRect.ofPoints (pts0 textItemHi.points) (ptsLast textItemHi.points)).normalized).top - 3) 6 6) ∈
      textItemHi.draw 1920 1080 fmZero aheadZero exportDevice ∧
     PaintCmd.handleEllipse (QRect.mk4
        (((QRect.ofPoints (pts0 textItemHi.points) (ptsLast textItemHi.points)).normalized).right - 3)
        (((QRect.ofPoints (pts0 textItemHi.points) (ptsLast textItemHi.points)).normalized).top - 3) 6 6) ∈
      textItemHi.draw 1920 1080 fmZero aheadZero exportDevice ∧
     PaintCmd.handleEllipse (QRect.mk4
        (((QRect.ofPoints (pts0 textItemHi.points) (ptsLast textItemHi.points)).normalized).left - 3)
        (((QRect.ofPoints (pts0 textItemHi.points) (ptsLast textItemHi.points)).normalized).bottom - 3) 6 6) ∈
      textItemHi.draw 1920 1080 fmZero aheadZero exportDevice ∧
     PaintCmd.handleEllipse (QRect.mk4
        (((QRect.ofPoints (pts0 textItemHi.points) (ptsLast textItemHi.points)).normalized).right - 3)
        (((QRect.ofPoints (pts0 textItemHi.points) (ptsLast textItemHi.points)).normalized).bottom - 3) 6 6) ∈
      textItemHi.draw 1920 1080 fmZero aheadZero exportDevice) :=
  ⟨⟨by decide, by decide⟩,
    C3_text_box_and_handles_always_drawn textItemHi 1920 1080 fmZero aheadZero
      exportDevice (by decide) (by decide)⟩

/-! ## Claim C7 -/

/-- C7 (counterexample): a press on a point inside **both** a text item's
corner handle and a selection resize handle starts a *selection* resize,
not a text-item resize.  With selection `(100,100,200,150)` and the text
item at `(105,105)-(200,160)`, the point `(100,100)` lies in the
selection's top-left handle `(95,95,10,10)` and in the text item's
top-left handle `(93,93,24,24)`; `mousePressEvent` checks the selection
handles first and dispatches a selection resize. -/
theorem C7_counterexample :
    (QRect.mk4 95 95 10 10).containsPt ⟨100, 100⟩ = true ∧
    (QRect.mk4 93 93 24 24).containsPt ⟨100, 100⟩ = true ∧
    mousePressEventSelect (QRect.mk4 100 100 200 150) [textItemNearCorner] ⟨100, 100⟩ =
      PressAction.selResize Handle.topLeft ∧
    mousePressEventSelect (QRect.mk4 100 100 200 150) [textItemNearCorner] ⟨100, 100⟩ ≠
      PressAction.textResize 0 TCorner.tl := by
  decide

/-- C7 (amended): when the selection is non-empty and the press point hits
any of the selection's resize handles, the press always starts a selection
resize — the selection handles are checked *before* any text-item handle or
body, so they take precedence over every text-item target. -/
theorem C7_selection_handles_take_precedence (sel : QRect) (items : List DItem)
    (pos : Pt) (hne : sel.isEmpty = false)
    (hhit : ∃ hr ∈ getResizeHandles sel, hr.2.containsPt pos = true) :
    ∃ h, mousePressEventSelect sel items pos = .selResize h := by
  have hs : ((getResizeHandles sel).find? fun hr => hr.2.containsPt pos).isSome := by
    rw [List.find?_isSome]
    obtain ⟨hr, hmem, hp⟩ := hhit
    exact ⟨hr, hmem, hp⟩
  obtain ⟨hr, hfind⟩ := Option.isSome_iff_exists.mp hs
  refine ⟨hr.1, ?_⟩
  simp [mousePressEventSelect, hne, hfind]

/-- C7 (witness): the amended theorem applied at the overlapping-handles
press of the counterexample configuration. -/
theorem C7_witness :
    ((QRect.mk4 100 100 200 150).isEmpty = false ∧
     ∃ hr ∈ getResizeHandles (QRect.mk4 100 100 200 150),
       hr.2.containsPt ⟨100, 100⟩ = true) ∧
    ∃ h, mousePressEventSelect (QRect.mk4 100 100 200 150) [textItemNearCorner]
      ⟨100, 100⟩ = .selResize h :=
  ⟨⟨by decide, ⟨(Handle.topLeft, QRect.mk4 95 95 10 10), by decide, by decide⟩⟩,
    C7_selection_handles_take_precedence (QRect.mk4 100 100 200 150)
      [textItemNearCorner] ⟨100, 100⟩ (by decide)
      ⟨(Handle.topLeft, QRect.mk4 95 95 10 10), by decide, by decide⟩⟩

/-! ## Claim C8 -/

/-- C8 (counterexample): committing an IME string does **not** mutate the
selection range the way pasting does.  In the reachable session
`reopenedHiSession` (buffer `"hi"`, cursor 2, stale collapsed selection
`(0,0)`), committing `"x"` inserts at the cursor but leaves the selection
fields at `(0,0)`, while pasting `"x"` collapses them to the new cursor
`(3,3)` — the buffers and cursors agree, the selection ranges differ. -/
theorem C8_counterexample :
    reopenedHiSession.text_input_buffer = "hi".data ∧
    reopenedHiSession.cursor_position = 2 ∧
    reopenedHiSession.text_selection_start = 0 ∧
    reopenedHiSession.text_selection_end = 0 ∧
    (inputMethodEvent reopenedHiSession ['x'] []).text_input_buffer =
      (keyPressCtrlV reopenedHiSession ['x']).text_input_buffer ∧
    (inputMethodEvent reopenedHiSession ['x'] []).text_selection_end = 0 ∧
    (keyPressCtrlV reopenedHiSession ['x']).text_selection_end = 3 ∧
    (inputMethodEvent reopenedHiSession ['x'] []).text_selection_end ≠
      (keyPressCtrlV reopenedHiSession ['x']).text_selection_end := by
  decide

/-- C8 (amended): committing a non-empty IME string mutates the buffer and
the cursor exactly as pasting the same string would, and clears the
pre-edit state (for a commit event with no residual pre-edit string).  The
selection range matches the paste behaviour only when a selection exists
(both collapse it onto the new cursor); with no selection, paste collapses
the selection fields onto the new cursor while the IME commit leaves them
unchanged. -/
theorem C8_ime_commit_matches_paste (s : EditorState) (c : List Char)
    (hc : c ≠ []) (hie : s.inline_editing = true) :
    (inputMethodEvent s c []).text_input_buffer = (keyPressCtrlV s c).text_input_buffer ∧
    (inputMethodEvent s c []).cursor_position = (keyPressCtrlV s c).cursor_position ∧
    (inputMethodEvent s c []).preedit_text = [] ∧
    (inputMethodEvent s c []).preedit_cursor_pos = 0 ∧
    (s.text_selection_start ≠ s.text_selection_end →
      (inputMethodEvent s c []).text_selection_start = (keyPressCtrlV s c).text_selection_start ∧
      (inputMethodEvent s c []).text_selection_end = (keyPressCtrlV s c).text_selection_end) ∧
    (s.text_selection_start = s.text_selection_end →
      (inputMethodEvent s c []).text_selection_start = s.text_selection_start ∧
      (inputMethodEvent s c []).text_selection_end = s.text_selection_end ∧
      (keyPressCtrlV s c).text_selection_start = (keyPressCtrlV s c).cursor_position ∧
      (keyPressCtrlV s c).text_selection_end = (keyPressCtrlV s c).cursor_position) := by
  by_cases hsel : s.text_selection_start = s.text_selection_end <;>
    simp [inputMethodEvent, keyPressCtrlV, hie, hc, hsel]

/-- C8 (witness): the amended theorem applied to the reachable session
`reopenedHiSession` and the commit string `"x"`. -/
theorem C8_witness :
    ((['x'] : List Char) ≠ [] ∧ reopenedHiSession.inline_editing = true) ∧
    ((inputMethodEvent reopenedHiSession ['x'] []).text_input_buffer =
        (keyPressCtrlV reopenedHiSession ['x']).text_input_buffer ∧
     (inputMethodEvent reopenedHiSession ['x'] []).cursor_position =
        (keyPressCtrlV reopenedHiSession ['x']).cursor_position ∧
     (inputMethodEvent reopenedHiSession ['x'] []).preedit_text = [] ∧
     (inputMethodEvent reopenedHiSession ['x'] []).preedit_cursor_pos = 0 ∧
     (reopenedHiSession.text_selection_start ≠ reopenedHiSession.text_selection_end →
       (inputMethodEvent reopenedHiSession ['x'] []).text_selection_start =
          (keyPressCtrlV reopenedHiSession ['x']).text_selection_start ∧
       (inputMethodEvent reopenedHiSession ['x'] []).text_selection_end =
          (keyPressCtrlV reopenedHiSession ['x']).text_selection_end) ∧
     (reopenedHiSession.text_selection_start = reopenedHiSession.text_selection_end →
       (inputMethodEvent reopenedHiSession ['x'] []).text_selection_start =
          reopenedHiSession.text_selection_start ∧
       (inputMethodEvent reopenedHiSession ['x'] []).text_selection_end =
          reopenedHiSession.text_selection_end ∧
       (keyPressCtrlV reopenedHiSession ['x']).text_selection_start =
          (keyPressCtrlV reopenedHiSession ['x']).cursor_position ∧
       (keyPressCtrlV reopenedHiSession ['x']).text_selection_end =
          (keyPressCtrlV reopenedHiSession ['x']).cursor_position)) :=
  ⟨⟨by decide, by decide⟩,
    C8_ime_commit_matches_paste reopenedHiSession ['x'] (by decide) (by decide)⟩
